import Mathlib

/-
Verification of the particle pooling and gradient-blending engine of the
3DTrail tool. The definitions below are a shallow embedding of
src/js/main.js: JavaScript numbers are idealised as exact rationals (ℚ),
the transcendental Math functions and the Math.random() samples consumed
during one update are supplied through an explicit environment, and the
mutable classes become pure state-passing functions.
-/

namespace Trail3D

/-! ## Instance pool (class ParticlePool, main.js lines 146-214) -/

/-- Visual transform stored in one slot of the InstancedMesh.
`zeroScale` models the `Matrix4().makeScale(0, 0, 0)` matrix that both
`init` and `release` write; `world` models the matrix composed by
`updateInstance` from a position, an Euler rotation and a scale. -/
inductive SlotMatrix where
  | zeroScale : SlotMatrix
  | world : ℚ × ℚ × ℚ → ℚ × ℚ × ℚ → ℚ × ℚ × ℚ → SlotMatrix
deriving DecidableEq

/-- State of one ParticlePool.  `freeIndices` and `activeCount` are the
fields of the same names; `live` is the key set of the `particles` Map
(kept as a list; every caller of `acquire` in main.js immediately stores
the new particle under the returned index, and `release` deletes it);
`matrices` is the per-slot content of the instance matrix buffer. -/
structure PoolState where
  maxCount : ℕ
  freeIndices : List ℕ
  live : List ℕ
  activeCount : ℕ
  matrices : ℕ → SlotMatrix

/-- Constructor plus `init`: all `maxCount` instances are hidden
(zero-scale matrix) and every index 0, …, maxCount-1 is pushed onto
`freeIndices` in order (main.js lines 147-178). -/
def PoolState.init (maxCount : ℕ) : PoolState :=
  { maxCount := maxCount
    freeIndices := List.range maxCount
    live := []
    activeCount := 0
    matrices := fun _ => SlotMatrix.zeroScale }

/-- The method `acquire()` (main.js lines 180-185): when `freeIndices` is
empty it returns `null` and changes nothing; otherwise it pops the last
free index, increments `activeCount` and returns the index.  The caller
(`trySpawnParticle`) immediately registers the particle in the `particles`
Map, which is mirrored by consing the index onto `live`. -/
def PoolState.acquire (s : PoolState) : PoolState × Option ℕ :=
  match s.freeIndices.getLast? with
  | Option.none => (s, Option.none)
  | Option.some index =>
      ({ s with freeIndices := s.freeIndices.dropLast
                live := index :: s.live
                activeCount := s.activeCount + 1 }, Option.some index)

/-- The method `release(index)` (main.js lines 187-193): writes the
zero-scale matrix into the slot, deletes the particle from the Map,
pushes the index back onto `freeIndices` and decrements `activeCount`. -/
def PoolState.release (s : PoolState) (index : ℕ) : PoolState :=
  { s with matrices := fun j => if j = index then SlotMatrix.zeroScale else s.matrices j
           live := s.live.erase index
           freeIndices := s.freeIndices ++ [index]
           activeCount := s.activeCount - 1 }

/-- The method `updateInstance(index, position, rotation, scale)`
(main.js lines 195-201): stages the composed transform in the slot. -/
def PoolState.updateInstance (s : PoolState) (index : ℕ)
    (position rotation scale : ℚ × ℚ × ℚ) : PoolState :=
  { s with matrices := fun j =>
      if j = index then SlotMatrix.world position rotation scale else s.matrices j }

/-- One external operation on a pool: an `acquire()` call or a
`release(i)` call. -/
inductive PoolOp where
  | acquire : PoolOp
  | release : ℕ → PoolOp

/-- Effect of one operation on the pool state (the index returned by
`acquire` is dropped here; `PoolState.acquire` itself exposes it). -/
def applyOp (s : PoolState) : PoolOp → PoolState
  | PoolOp.acquire => (s.acquire).1
  | PoolOp.release i => s.release i

/-- Running a sequence of operations. -/
def runOps (s : PoolState) (ops : List PoolOp) : PoolState :=
  ops.foldl applyOp s

/-- A sequence of operations is legal when every `release i` is applied
only while `i` is held by a live particle, as the contract of `release`
requires (releasing a slot not currently held is undefined). -/
def legalFrom (s : PoolState) : List PoolOp → Bool
  | [] => true
  | op :: ops =>
      (match op with
       | PoolOp.acquire => true
       | PoolOp.release i => s.live.contains i) && legalFrom (applyOp s op) ops

/-- Pool invariant: `usedCount + |freeSlots| = capacity`, the live count
agrees with the `particles` Map, and no slot index is duplicated or
simultaneously free and live. -/
def poolInv (s : PoolState) : Prop :=
  s.activeCount + s.freeIndices.length = s.maxCount ∧
  s.activeCount = s.live.length ∧
  s.freeIndices.Nodup ∧
  s.live.Nodup ∧
  ∀ i ∈ s.freeIndices, i ∉ s.live

instance (s : PoolState) : Decidable (poolInv s) := by
  unfold poolInv; infer_instance

/-! ## Gradient blend controller (updateGradientLerp and smoothstep,
main.js lines 1413-1455) -/

/-- The easing function `smoothstep(edge0, edge1, x)`
(main.js lines 1452-1455). -/
def smoothstep (edge0 edge1 x : ℚ) : ℚ :=
  let t := max 0 (min 1 ((x - edge0) / (edge1 - edge0)))
  t * t * (3 - 2 * t)

/-- State of the time-cycle gradient blend: the module-level variables
`currentGradientA`, `currentGradientB` and `gradientMixRatio` (the last
one is called `mixAmount` here), plus the shader uniform
`mixRatio.value` (called `mixUniform` here), which receives the eased
blend factor.  The initial values in main.js are A = 0, B = 1, ratio 0. -/
structure GradientLerpState where
  currentGradientA : ℕ
  currentGradientB : ℕ
  mixAmount : ℚ
  mixUniform : ℚ
deriving DecidableEq

/-- Initial blend state (main.js lines 123-125). -/
def GradientLerpState.start : GradientLerpState :=
  { currentGradientA := 0, currentGradientB := 1, mixAmount := 0, mixUniform := 0 }

/-- The function `updateGradientLerp(delta)` (main.js lines 1413-1449),
for a gradient set of size `numGradients` and cycle speed
`gradientCycleSpeed`: the mix amount advances by `delta * speed`; on
reaching 1 it is reset to 0 and the pair (A, B) rotates to the next
adjacent pair modulo the gradient count; finally the shader blend
uniform is set to the smoothstep easing of the (possibly reset) mix
amount.  The embedding assumes the custom material's shader is present
(the early `return` guard when it is absent changes nothing). -/
def updateGradientLerp (numGradients : ℕ) (gradientCycleSpeed delta : ℚ)
    (s : GradientLerpState) : GradientLerpState :=
  let mix := s.mixAmount + delta * gradientCycleSpeed
  let s1 :=
    if 1 ≤ mix then
      { s with mixAmount := 0
               currentGradientA := s.currentGradientB
               currentGradientB := (s.currentGradientB + 1) % numGradients }
    else { s with mixAmount := mix }
  { s1 with mixUniform := smoothstep 0 1 s1.mixAmount }

/-- One full ratio advance in time-cycle mode: a tick whose elapsed
mix-time completes the transition (delta * speed = 1 starting from a
reset ratio). -/
def cycleAdvance (numGradients : ℕ) (s : GradientLerpState) : GradientLerpState :=
  updateGradientLerp numGradients 1 1 s

/-! ## Particle state and per-tick update
(class Particle, main.js lines 217-274; updateParticles and its helper
updateSingleParticle, main.js lines 762-937) -/

/-- A three-component vector of idealised JavaScript numbers
(THREE.Vector3, and THREE.Euler for rotations). -/
structure Vec3 where
  x : ℚ
  y : ℚ
  z : ℚ
deriving DecidableEq

instance : Add Vec3 := ⟨fun a b => ⟨a.x + b.x, a.y + b.y, a.z + b.z⟩⟩

instance : Sub Vec3 := ⟨fun a b => ⟨a.x - b.x, a.y - b.y, a.z - b.z⟩⟩

instance : Zero Vec3 := ⟨⟨0, 0, 0⟩⟩

/-- Scalar multiple (THREE.Vector3.multiplyScalar). -/
def Vec3.smul (c : ℚ) (v : Vec3) : Vec3 := ⟨c * v.x, c * v.y, c * v.z⟩

/-- Exact rational value of the IEEE-754 double constant `Math.PI`
used by the JavaScript runtime (3.141592653589793…, 2^48 denominator). -/
def piQ : ℚ := 884279719003555 / 281474976710656

/-- Environment supplying the results of the JavaScript Math library
calls made during one particle update: the transcendental functions
`Math.sin`, `Math.cos`, `Math.atan2` and `Math.sqrt` (borne by
THREE.Vector3.length and normalize), plus the two `Math.random()`
samples drawn by the `random` float style in this tick. -/
structure MathEnv where
  sin : ℚ → ℚ
  cos : ℚ → ℚ
  atan2 : ℚ → ℚ → ℚ
  sqrt : ℚ → ℚ
  randX : ℚ
  randY : ℚ

/-- THREE.Vector3.length(): the square root of the sum of squares. -/
def Vec3.lengthE (env : MathEnv) (v : Vec3) : ℚ :=
  env.sqrt (v.x * v.x + v.y * v.y + v.z * v.z)

/-- THREE.Vector3.normalize(): divide by `length() || 1`. -/
def Vec3.normalizeE (env : MathEnv) (v : Vec3) : Vec3 :=
  let l := v.lengthE env
  let d := if l = 0 then 1 else l
  ⟨v.x / d, v.y / d, v.z / d⟩

/-- The `settings.floatStyle` values. -/
inductive FloatStyle where
  | oscillate : FloatStyle
  | random : FloatStyle
  | perlin : FloatStyle
deriving DecidableEq

/-- The `settings.facingMode` values. -/
inductive FacingMode where
  | none : FacingMode
  | random : FacingMode
  | fixed : FacingMode
  | billboard : FacingMode
  | mouse : FacingMode
deriving DecidableEq

/-- The `settings.disappearMode` values. -/
inductive DisappearMode where
  | fade : DisappearMode
  | shrink : DisappearMode
  | snap : DisappearMode
deriving DecidableEq

/-- The slice of the module-level `settings` object read by particle
spawning and the per-tick particle update (main.js lines 31-102). -/
structure Settings where
  lifespan : ℚ
  exitDuration : ℚ
  disappearMode : DisappearMode
  floatEnabled : Bool
  floatStyle : FloatStyle
  floatAmplitude : ℚ
  followEnabled : Bool
  followStrength : ℚ
  facingMode : FacingMode
  fixedAngleX : ℚ
  fixedAngleY : ℚ
  fixedAngleZ : ℚ
  gravityEnabled : Bool
  gravityStrength : ℚ
  spinEnabled : Bool
  spinSpeed : ℚ
  tumbleEnabled : Bool
  tumbleSpeed : ℚ
  bounceEnabled : Bool
  bounceHeight : ℚ
  bounceAmount : ℚ
deriving DecidableEq

/-- The per-particle state (class Particle, main.js lines 217-274).
`spinOffset` is the accumulated spin/tumble offset; `moveDirection` is
stored at spawn but never read by the update pass.  The `poolIndex`
tag written by `trySpawnParticle` is bookkeeping for multi-pool mode
and is omitted. -/
structure Particle where
  index : ℕ
  position : Vec3
  velocity : Vec3
  rotation : Vec3
  angularVelocity : Vec3
  spinOffset : Vec3
  scale : Vec3
  initialScale : ℚ
  age : ℚ
  lifespan : ℚ
  moveDirection : ℚ × ℚ
  spawnTime : ℚ
  phaseOffset : ℚ
deriving DecidableEq

/-- The Particle constructor together with the fields `trySpawnParticle`
sets right after it (main.js lines 218-273 and 737-755): velocity,
rotation, spin offset start at zero; the angular velocity is drawn from
the tumble/spin settings (`tumbleRand` carries the three `Math.random()`
samples, each mapped through `(r - 0.5) * 4 * tumbleSpeed`); the initial
rotation is random (`rotRand` samples scaled to `[0, 2π)`) in `random`
mode, the configured fixed angles converted by `degToRad` in `fixed`
mode, and zero otherwise; `lifespan` is copied from the settings at
spawn time and `phaseRand` is the `Math.random()` sample behind
`phaseOffset`. -/
def Particle.spawn (st : Settings) (index : ℕ) (position : Vec3) (scale : ℚ)
    (moveDirection : ℚ × ℚ) (tumbleRand rotRand : Vec3)
    (spawnTime phaseRand : ℚ) : Particle :=
  let av0 : Vec3 :=
    if st.tumbleEnabled then
      ⟨(tumbleRand.x - 1/2) * 4 * st.tumbleSpeed,
       (tumbleRand.y - 1/2) * 4 * st.tumbleSpeed,
       (tumbleRand.z - 1/2) * 4 * st.tumbleSpeed⟩
    else ⟨0, 0, 0⟩
  let av : Vec3 := if st.spinEnabled then ⟨av0.x, av0.y + st.spinSpeed, av0.z⟩ else av0
  let rot : Vec3 :=
    match st.facingMode with
    | FacingMode.random => ⟨rotRand.x * piQ * 2, rotRand.y * piQ * 2, rotRand.z * piQ * 2⟩
    | FacingMode.fixed =>
        ⟨st.fixedAngleX * (piQ / 180), st.fixedAngleY * (piQ / 180),
         st.fixedAngleZ * (piQ / 180)⟩
    | _ => ⟨0, 0, 0⟩
  { index := index
    position := position
    velocity := ⟨0, 0, 0⟩
    rotation := rot
    angularVelocity := av
    spinOffset := ⟨0, 0, 0⟩
    scale := ⟨scale, scale, scale⟩
    initialScale := scale
    age := 0
    lifespan := st.lifespan
    moveDirection := moveDirection
    spawnTime := spawnTime
    phaseOffset := phaseRand * piQ * 2 }

/-- Float motion rule (main.js lines 782-802). -/
def applyFloat (env : MathEnv) (st : Settings) (time delta : ℚ) (p : Particle) : Particle :=
  if st.floatEnabled then
    let phase := p.spawnTime + p.phaseOffset
    match st.floatStyle with
    | FloatStyle.oscillate =>
        { p with position :=
            ⟨p.position.x + env.sin (time * 2 + phase) * st.floatAmplitude * delta,
             p.position.y + env.cos (time * (5/2) + phase * (13/10)) * st.floatAmplitude * delta,
             p.position.z⟩ }
    | FloatStyle.random =>
        { p with velocity :=
            ⟨p.velocity.x + (env.randX - 1/2) * st.floatAmplitude * delta * 2,
             p.velocity.y + (env.randY - 1/2) * st.floatAmplitude * delta * 2,
             p.velocity.z⟩ }
    | FloatStyle.perlin =>
        let noiseX := env.sin (time * (7/10) + (p.index : ℚ) * (1/10)) *
          env.cos (time * (1/2) + phase)
        let noiseY := env.cos (time * (3/5) + (p.index : ℚ) * (1/10)) *
          env.sin (time * (4/5) + phase)
        { p with position :=
            ⟨p.position.x + noiseX * st.floatAmplitude * delta,
             p.position.y + noiseY * st.floatAmplitude * delta,
             p.position.z⟩ }
  else p

/-- Gravity rule (main.js lines 805-807). -/
def applyGravity (st : Settings) (delta : ℚ) (p : Particle) : Particle :=
  if st.gravityEnabled then
    { p with velocity := ⟨p.velocity.x, p.velocity.y - st.gravityStrength * delta, p.velocity.z⟩ }
  else p

/-- Follow/attraction rule (main.js lines 810-817): runs only when the
follow toggle is on and a mouse world position is available this tick;
the pull is applied only beyond the 0.1 distance epsilon. -/
def applyFollow (env : MathEnv) (st : Settings) (delta : ℚ)
    (currentMouseWorld : Option Vec3) (p : Particle) : Particle :=
  if st.followEnabled then
    match currentMouseWorld with
    | Option.some m =>
        let direction := m - p.position
        let distance := direction.lengthE env
        if 1/10 < distance then
          { p with velocity :=
              p.velocity + Vec3.smul (st.followStrength * delta * 10) (direction.normalizeE env) }
        else p
    | Option.none => p
  else p

/-- Bounce rule (main.js lines 826-829). -/
def applyBounce (st : Settings) (p : Particle) : Particle :=
  if st.bounceEnabled ∧ p.position.y ≤ st.bounceHeight then
    { p with position := ⟨p.position.x, st.bounceHeight, p.position.z⟩
             velocity := ⟨p.velocity.x, |p.velocity.y| * st.bounceAmount, p.velocity.z⟩ }
  else p

/-- Facing-mode rotation resolution (main.js lines 837-879): direct
integration of the angular velocity for `none`/`random`/`fixed`;
camera billboard with the spin offset layered on top for `billboard`;
eased, per-axis clamped turning toward `currentMouseWorldPos` for
`mouse` (the module-level `currentMouseWorldPos` vector is always
present after `init()`, so the JavaScript truthiness guard on it is
always taken; `mouseTarget` is its current value). -/
def applyFacing (env : MathEnv) (st : Settings) (delta lifeFrac : ℚ)
    (cameraPosition mouseTarget : Vec3) (p : Particle) : Particle :=
  let p1 :=
    if st.facingMode = FacingMode.none ∨ st.facingMode = FacingMode.random ∨
        st.facingMode = FacingMode.fixed then
      { p with rotation :=
          ⟨p.rotation.x + p.angularVelocity.x * delta,
           p.rotation.y + p.angularVelocity.y * delta,
           p.rotation.z + p.angularVelocity.z * delta⟩ }
    else p
  let p2 :=
    if st.facingMode = FacingMode.billboard then
      let lookDir := Vec3.normalizeE env (cameraPosition - p1.position)
      let rotY := env.atan2 lookDir.x lookDir.z
      let rotX := env.atan2 (-lookDir.y) (env.sqrt (lookDir.x * lookDir.x + lookDir.z * lookDir.z))
      { p1 with rotation :=
          ⟨rotX + p1.spinOffset.x, rotY + p1.spinOffset.y, p1.spinOffset.z⟩ }
    else p1
  if st.facingMode = FacingMode.mouse then
    let toMouse := mouseTarget - p2.position
    let distance := toMouse.lengthE env
    if 1/100 < distance then
      let tm := toMouse.normalizeE env
      let targetRotY := env.atan2 tm.x (1/2) * (6/5) + p2.spinOffset.y
      let targetRotX := env.atan2 (-tm.y) 1 * (4/5) + p2.spinOffset.x
      let targetRotZ := tm.x * (1/5) + p2.spinOffset.z
      let maxAngleY := piQ / (5/2)
      let maxAngleX := piQ / 4
      let maxRoll := piQ / 10
      let clampedRotX := max (-maxAngleX) (min maxAngleX (targetRotX - p2.spinOffset.x)) +
        p2.spinOffset.x
      let clampedRotY := max (-maxAngleY) (min maxAngleY (targetRotY - p2.spinOffset.y)) +
        p2.spinOffset.y
      let clampedRotZ := max (-maxRoll) (min maxRoll (targetRotZ - p2.spinOffset.z)) +
        p2.spinOffset.z
      let lagFactor := 1/10 + lifeFrac * (3/20)
      { p2 with rotation :=
          ⟨p2.rotation.x + (clampedRotX - p2.rotation.x) * lagFactor,
           p2.rotation.y + (clampedRotY - p2.rotation.y) * lagFactor,
           p2.rotation.z + (clampedRotZ - p2.rotation.z) * lagFactor⟩ }
    else p2
  else p2

/-- Disappear/exit scaling rule (main.js lines 881-898): for `fade` and
`shrink`, once the remaining lifetime is inside the exit window — the
configured exit duration capped at the particle's lifespan — the scale
shrinks linearly from `initialScale` to zero; `snap` leaves the scale
at `initialScale`.  (In ℚ the `0/0` corner of `timeRemaining /
exitDuration` evaluates to 0 where IEEE arithmetic would give NaN; every
claim below keeps the exit window positive, away from that corner.) -/
def applyExitScale (st : Settings) (p : Particle) : Particle :=
  let timeRemaining := p.lifespan - p.age
  let exitDuration := min st.exitDuration p.lifespan
  let currentScale :=
    match st.disappearMode with
    | DisappearMode.fade | DisappearMode.shrink =>
        if timeRemaining ≤ exitDuration then
          let exitProgress := 1 - timeRemaining / exitDuration
          p.initialScale * (1 - exitProgress)
        else p.initialScale
    | DisappearMode.snap => p.initialScale
  { p with scale := ⟨currentScale, currentScale, currentScale⟩ }

/-- A transform staged for the pool slot by `pool.updateInstance`. -/
structure StagedTransform where
  position : Vec3
  rotation : Vec3
  scale : Vec3
deriving DecidableEq

/-- The helper `updateSingleParticle(particle, index, pool)`
(main.js lines 771-904): the age advances first and an expired particle
is marked for removal immediately, skipping every remaining rule and
staging no transform; otherwise the numbered rules run in order — float,
gravity, follow, 0.99 velocity damping, position integration at 60×
delta, bounce, spin accumulation, facing resolution, exit scaling — and
the resulting transform is staged for the slot.  The returned Bool is
the removal mark, the returned Option the staged `updateInstance`
write. -/
def updateSingleParticle (env : MathEnv) (st : Settings) (time delta : ℚ)
    (cameraPosition : Vec3) (currentMouseWorld : Option Vec3)
    (currentMouseWorldPos : Vec3) (p : Particle) :
    Particle × Bool × Option StagedTransform :=
  let p0 := { p with age := p.age + delta }
  if p0.lifespan ≤ p0.age then (p0, true, Option.none)
  else
    let lifeFrac := p0.age / p0.lifespan
    let p1 := applyFloat env st time delta p0
    let p2 := applyGravity st delta p1
    let p3 := applyFollow env st delta currentMouseWorld p2
    let p4 := { p3 with velocity :=
        ⟨p3.velocity.x * (99/100), p3.velocity.y * (99/100), p3.velocity.z * (99/100)⟩ }
    let p5 := { p4 with position := p4.position + Vec3.smul (delta * 60) p4.velocity }
    let p6 := applyBounce st p5
    let p7 := { p6 with spinOffset :=
        ⟨p6.spinOffset.x + p6.angularVelocity.x * delta,
         p6.spinOffset.y + p6.angularVelocity.y * delta,
         p6.spinOffset.z + p6.angularVelocity.z * delta⟩ }
    let p8 := applyFacing env st delta lifeFrac cameraPosition currentMouseWorldPos p7
    let p9 := applyExitScale st p8
    (p9, false, Option.some ⟨p9.position, p9.rotation, p9.scale⟩)

/-- The inputs one animation tick feeds into a particle update:
the Math environment, the clock time and delta, the camera position,
`getWorldPosition()` (absent when the pointer ray misses), and the value
the persistent `currentMouseWorldPos` vector held before this tick. -/
structure TickIn where
  env : MathEnv
  time : ℚ
  delta : ℚ
  cameraPosition : Vec3
  mouseWorld : Option Vec3
  lastMouseWorld : Vec3

/-- One tick of `updateParticles` as seen by a single particle
(main.js lines 762-768 and 901-917): `currentMouseWorldPos` is
overwritten by the fresh world position when one exists and otherwise
keeps its previous value, and the particle is updated with both. -/
def tickOnce (st : Settings) (t : TickIn) (p : Particle) :
    Particle × Bool × Option StagedTransform :=
  updateSingleParticle t.env st t.time t.delta t.cameraPosition t.mouseWorld
    (t.mouseWorld.getD t.lastMouseWorld) p

/-- The particle state after one tick (the removal mark dropped). -/
def stepP (st : Settings) (t : TickIn) (p : Particle) : Particle :=
  (tickOnce st t p).1

/-- Index of the first tick (0-based) whose update marks the particle
for removal, over a list of tick inputs; `none` when the particle
survives them all. -/
def runUntilRemoved (st : Settings) : List TickIn → Particle → Option ℕ
  | [], _ => Option.none
  | t :: ts, p =>
      let r := tickOnce st t p
      if r.2.1 then Option.some 0
      else (runUntilRemoved st ts r.1).map (· + 1)

/-- Sum of the delta times of the first `n` ticks. -/
def deltaSum (ticks : List TickIn) (n : ℕ) : ℚ :=
  ((ticks.take n).map TickIn.delta).sum

/-! ## Concrete scenario data -/

/-- Operation sequence for the pool-invariant witness: two acquires, a
release of a held slot, another acquire. -/
def c1Ops : List PoolOp :=
  [PoolOp.acquire, PoolOp.acquire, PoolOp.release 1, PoolOp.acquire]

/-- Capacity-4 pool scenario: the fresh pool and the states after each
successive acquire. -/
def c4Pool0 : PoolState := PoolState.init 4

def c4Pool1 : PoolState := (c4Pool0.acquire).1

def c4Pool2 : PoolState := (c4Pool1.acquire).1

def c4Pool3 : PoolState := (c4Pool2.acquire).1

def c4Pool4 : PoolState := (c4Pool3.acquire).1

/-- A Math environment in which every sample is zero.  Used for scenario
ticks whose examined outcome (age, removal, scale) does not depend on
any Math library result. -/
def zeroEnv : MathEnv :=
  { sin := fun _ => 0, cos := fun _ => 0, atan2 := fun _ _ => 0,
    sqrt := fun _ => 0, randX := 0, randY := 0 }

/-- Baseline settings for the scenarios: lifespan 3, exit duration 1,
fade disappear mode, every optional behavior off, facing mode `none`
(the values of the unused tunables are the main.js defaults). -/
def baseSettings : Settings :=
  { lifespan := 3
    exitDuration := 1
    disappearMode := DisappearMode.fade
    floatEnabled := false
    floatStyle := FloatStyle.oscillate
    floatAmplitude := 3/10
    followEnabled := false
    followStrength := 1/10
    facingMode := FacingMode.none
    fixedAngleX := 0
    fixedAngleY := 0
    fixedAngleZ := 0
    gravityEnabled := false
    gravityStrength := 49/5
    spinEnabled := false
    spinSpeed := 1
    tumbleEnabled := false
    tumbleSpeed := 1
    bounceEnabled := false
    bounceHeight := -3
    bounceAmount := 3/5 }

/-- A scenario particle for the baseline settings, spawned at the origin
with unit scale and then aged to `a`. -/
def baseP (a : ℚ) : Particle :=
  { Particle.spawn baseSettings 0 ⟨0, 0, 0⟩ 1 (1, 0) ⟨0, 0, 0⟩ ⟨0, 0, 0⟩ 0 0 with age := a }

/-- A scenario tick with delta time `d`, pointer present at the origin. -/
def baseTick (d : ℚ) : TickIn :=
  { env := zeroEnv, time := 0, delta := d, cameraPosition := ⟨0, 0, 10⟩,
    mouseWorld := Option.some ⟨0, 0, 0⟩, lastMouseWorld := ⟨0, 0, 0⟩ }

/-- Settings for the C9 witness: configured exit duration 5 exceeds the
lifespan 2. -/
def c9Settings : Settings := { baseSettings with lifespan := 2, exitDuration := 5 }

/-- Math environment for the absent-pointer scenario.  Along the
examined tick `sqrt` is queried only at 25 (where the true square root
is 5) and the `atan2` samples influence only the x and y rotation
components, which the counterexample does not examine. -/
def c7Env : MathEnv :=
  { sin := fun _ => 0, cos := fun _ => 0, atan2 := fun _ _ => 0,
    sqrt := fun _ => 5, randX := 0, randY := 0 }

/-- Settings for the absent-pointer scenario: mouse facing mode, every
other behavior off. -/
def c7Settings : Settings := { baseSettings with facingMode := FacingMode.mouse }

/-- The absent-pointer tick: `getWorldPosition()` returned null, while
the persistent `currentMouseWorldPos` still holds (3, 0, 4) from an
earlier tick. -/
def c7Tick : TickIn :=
  { env := c7Env, time := 0, delta := 1, cameraPosition := ⟨0, 0, 10⟩,
    mouseWorld := Option.none, lastMouseWorld := ⟨3, 0, 4⟩ }

/-- Particle for the absent-pointer scenario, freshly spawned at the
origin in mouse facing mode (zero rotation and spin). -/
def c7P : Particle :=
  Particle.spawn c7Settings 0 ⟨0, 0, 0⟩ 1 (1, 0) ⟨0, 0, 0⟩ ⟨0, 0, 0⟩ 0 0

/-- Math environment for the yaw scenario.  Along the examined ticks
`sqrt` is queried only at 1 (true value 1) and `atan2` only at (0, 1/2)
and (0, 1) (true value 0), so the trace matches the JavaScript Math
results exactly. -/
def c6Env : MathEnv :=
  { sin := fun _ => 0, cos := fun _ => 0, atan2 := fun _ _ => 0,
    sqrt := fun _ => 1, randX := 0, randY := 0 }

/-- Settings for the yaw scenario: mouse facing mode with spin enabled
at speed 5 and a long lifespan. -/
def c6Settings : Settings :=
  { baseSettings with facingMode := FacingMode.mouse, spinEnabled := true,
                      spinSpeed := 5, lifespan := 100,
                      disappearMode := DisappearMode.snap }

/-- Yaw-scenario tick: half-second delta, pointer straight ahead of the
particle at (0, 0, 1). -/
def c6Tick : TickIn :=
  { env := c6Env, time := 0, delta := 1/2, cameraPosition := ⟨0, 0, 10⟩,
    mouseWorld := Option.some ⟨0, 0, 1⟩, lastMouseWorld := ⟨0, 0, 1⟩ }

/-- Particle for the yaw scenario, freshly spawned at the origin in
mouse facing mode with the spin setting on (angular velocity (0, 5, 0)). -/
def c6P : Particle :=
  Particle.spawn c6Settings 0 ⟨0, 0, 0⟩ 1 (1, 0) ⟨0, 0, 0⟩ ⟨0, 0, 0⟩ 0 0

/-- Inductive invariant for the yaw-clamp argument: the y components of
the angular velocity and the accumulated spin offset are zero, the age
is nonnegative, the lifespan is the configured one, and the yaw is
within the mouse-facing clamp bound π/2.5. -/
def mouseYawInv (st : Settings) (q : Particle) : Prop :=
  q.angularVelocity.y = 0 ∧ q.spinOffset.y = 0 ∧ 0 ≤ q.age ∧
    q.lifespan = st.lifespan ∧ |q.rotation.y| ≤ piQ / (5/2)

/-! ## Lemmas and verification theorems -/

theorem applyOp_maxCount (s : PoolState) (op : PoolOp) :
    (applyOp s op).maxCount = s.maxCount := by
  cases op with
  | acquire =>
      unfold applyOp PoolState.acquire
      cases s.freeIndices.getLast? <;> rfl
  | release i => rfl

theorem runOps_cons (s : PoolState) (op : PoolOp) (ops : List PoolOp) :
    runOps s (op :: ops) = runOps (applyOp s op) ops := rfl

theorem runOps_maxCount (s : PoolState) (ops : List PoolOp) :
    (runOps s ops).maxCount = s.maxCount := by
  induction ops generalizing s with
  | nil => rfl
  | cons op ops ih => rw [runOps_cons, ih, applyOp_maxCount]

theorem poolInv_init (C : ℕ) : poolInv (PoolState.init C) := by
  refine ⟨by simp [PoolState.init], rfl, ?_, List.nodup_nil, ?_⟩
  · exact List.nodup_range C
  · intro i _ hi
    exact absurd hi (List.not_mem_nil i)

theorem poolInv_acquire (s : PoolState) (h : poolInv s) : poolInv (s.acquire).1 := by
  obtain ⟨hlen, hact, hfree, hlive, hdisj⟩ := h
  unfold PoolState.acquire
  cases hg : s.freeIndices.getLast? with
  | none => exact ⟨hlen, hact, hfree, hlive, hdisj⟩
  | some i =>
      obtain ⟨l, hl⟩ := List.getLast?_eq_some_iff.mp hg
      have hmem : i ∈ s.freeIndices := by rw [hl]; simp
      have hinotl : i ∉ l := by
        rw [hl, List.nodup_append] at hfree
        intro hil
        exact hfree.2.2 hil (by simp)
      refine ⟨?_, ?_, ?_, ?_, ?_⟩
      · simp only [hl, List.dropLast_concat]
        rw [hl] at hlen
        simp only [List.length_append, List.length_cons, List.length_nil] at hlen
        omega
      · simpa using hact
      · simp only [hl, List.dropLast_concat]
        rw [hl, List.nodup_append] at hfree
        exact hfree.1
      · exact List.nodup_cons.mpr ⟨hdisj i hmem, hlive⟩
      · intro j hj
        simp only [hl, List.dropLast_concat] at hj
        have hjf : j ∈ s.freeIndices := by rw [hl]; exact List.mem_append_left _ hj
        intro hcon
        rcases List.mem_cons.mp hcon with rfl | hjl
        · exact hinotl hj
        · exact hdisj j hjf hjl

theorem poolInv_release (s : PoolState) (i : ℕ) (hi : i ∈ s.live) (h : poolInv s) :
    poolInv (s.release i) := by
  obtain ⟨hlen, hact, hfree, hlive, hdisj⟩ := h
  have hif : i ∉ s.freeIndices := fun hc => hdisj i hc hi
  have hlivepos : 1 ≤ s.live.length := List.length_pos.mpr (List.ne_nil_of_mem hi)
  refine ⟨?_, ?_, ?_, ?_, ?_⟩
  · unfold PoolState.release
    simp only [List.length_append, List.length_cons, List.length_nil]
    omega
  · unfold PoolState.release
    simp only [List.length_erase_of_mem hi]
    omega
  · unfold PoolState.release
    simp only
    rw [List.nodup_append]
    refine ⟨hfree, List.nodup_singleton i, ?_⟩
    intro j hj hj2
    rcases List.mem_singleton.mp hj2 with rfl
    exact hif hj
  · exact hlive.erase i
  · intro j hj
    unfold PoolState.release at hj ⊢
    simp only at hj ⊢
    rcases List.mem_append.mp hj with hjf | hji
    · intro hc
      exact hdisj j hjf (List.mem_of_mem_erase hc)
    · rcases List.mem_singleton.mp hji with rfl
      intro hc
      exact ((hlive.mem_erase_iff).mp hc).1 rfl

theorem acquire_fresh (s : PoolState) (h : poolInv s) (i : ℕ)
    (hi : (s.acquire).2 = Option.some i) : i ∉ s.live := by
  obtain ⟨_, _, _, _, hdisj⟩ := h
  unfold PoolState.acquire at hi
  cases hg : s.freeIndices.getLast? with
  | none => rw [hg] at hi; exact absurd hi (by simp)
  | some j =>
      rw [hg] at hi
      simp only [Option.some.injEq] at hi
      obtain ⟨l, hl⟩ := List.getLast?_eq_some_iff.mp hg
      subst hi
      exact hdisj j (by rw [hl]; simp)

theorem poolInv_runOps (s : PoolState) (ops : List PoolOp)
    (hleg : legalFrom s ops = true) (h : poolInv s) : poolInv (runOps s ops) := by
  induction ops generalizing s with
  | nil => exact h
  | cons op ops ih =>
      unfold legalFrom at hleg
      rw [Bool.and_eq_true] at hleg
      obtain ⟨h1, h2⟩ := hleg
      rw [runOps_cons]
      refine ih _ h2 ?_
      cases op with
      | acquire => exact poolInv_acquire s h
      | release i =>
          have hmem : i ∈ s.live := by
            simpa using h1
          exact poolInv_release s i hmem h

theorem legalFrom_append (s : PoolState) (l1 l2 : List PoolOp) :
    legalFrom s (l1 ++ l2) = (legalFrom s l1 && legalFrom (runOps s l1) l2) := by
  induction l1 generalizing s with
  | nil => simp [legalFrom, runOps]
  | cons op ops ih =>
      simp only [List.cons_append, legalFrom, List.append_eq, ih, runOps_cons, Bool.and_assoc]

/-- C1: for every legal sequence of acquire/release operations on a pool
of capacity C (release only ever applied to a currently live slot), the
invariant `usedCount + |freeSlots| = C` holds after every operation, and
`acquire` at any reachable state never returns a slot index that is
currently held by a live particle. -/
theorem c1_pool_invariant (C : ℕ) (ops : List PoolOp)
    (hleg : legalFrom (PoolState.init C) ops = true) :
    (∀ pfx, pfx <+: ops →
        (runOps (PoolState.init C) pfx).activeCount +
          (runOps (PoolState.init C) pfx).freeIndices.length = C ∧
        poolInv (runOps (PoolState.init C) pfx)) ∧
    (∀ pfx i, pfx <+: ops →
        ((runOps (PoolState.init C) pfx).acquire).2 = Option.some i →
        i ∉ (runOps (PoolState.init C) pfx).live) := by
  have key : ∀ pfx, pfx <+: ops → poolInv (runOps (PoolState.init C) pfx) := by
    intro pfx hpfx
    obtain ⟨t, rfl⟩ := hpfx
    rw [legalFrom_append, Bool.and_eq_true] at hleg
    exact poolInv_runOps _ pfx hleg.1 (poolInv_init C)
  constructor
  · intro pfx hpfx
    have hinv := key pfx hpfx
    refine ⟨?_, hinv⟩
    have := hinv.1
    rwa [runOps_maxCount] at this
  · intro pfx i hpfx hacq
    exact acquire_fresh _ (key pfx hpfx) i hacq

/-- Witness for C1 at capacity 2 with the concrete legal sequence
acquire, acquire, release 1, acquire. -/
theorem c1_pool_invariant_witness :
    (runOps (PoolState.init 2) c1Ops).activeCount +
      (runOps (PoolState.init 2) c1Ops).freeIndices.length = 2 :=
  ((c1_pool_invariant 2 c1Ops (by decide)).1 c1Ops (List.prefix_refl _)).1

/-- C4: `acquire` returns none exactly when no free slot remains, an
exhausted acquire leaves the pool unchanged (the spawn attempt is
silently skipped, no error path exists), and on a capacity-4 pool four
acquires succeed, the fifth returns none, and after one release the next
acquire succeeds again. -/
theorem c4_acquire_exhaustion :
    (∀ s : PoolState, (s.acquire).2 = Option.none ↔ s.freeIndices = []) ∧
    (∀ s : PoolState, s.freeIndices = [] → s.acquire = (s, Option.none)) ∧
    ((c4Pool0.acquire).2 = Option.some 3 ∧ (c4Pool1.acquire).2 = Option.some 2 ∧
      (c4Pool2.acquire).2 = Option.some 1 ∧ (c4Pool3.acquire).2 = Option.some 0 ∧
      (c4Pool4.acquire).2 = Option.none ∧
      ((c4Pool4.release 2).acquire).2 = Option.some 2) := by
  refine ⟨?_, ?_, by decide⟩
  · intro s
    unfold PoolState.acquire
    cases hg : s.freeIndices.getLast? with
    | none => simpa using List.getLast?_eq_none_iff.mp hg
    | some i =>
        simp only [Option.some_ne_none i, false_iff]
        intro hc
        rw [hc] at hg
        exact absurd hg (by simp)
  · intro s h
    unfold PoolState.acquire
    rw [h]
    rfl

/-- Witness for C4: the exhausted capacity-4 pool really takes the
skip branch. -/
theorem c4_acquire_exhaustion_witness :
    c4Pool4.acquire = (c4Pool4, Option.none) :=
  c4_acquire_exhaustion.2.1 c4Pool4 (by decide)

theorem cycleAdvance_eq (n a b : ℕ) (u : ℚ) :
    cycleAdvance n ⟨a, b, 0, u⟩ = ⟨b, (b + 1) % n, 0, 0⟩ := by
  simp only [cycleAdvance, updateGradientLerp, smoothstep]
  norm_num

theorem cycleAdvance_pair (n : ℕ) (h2 : 2 ≤ n) (k : ℕ) :
    (cycleAdvance n)^[k] GradientLerpState.start =
      { currentGradientA := k % n, currentGradientB := (k + 1) % n,
        mixAmount := 0, mixUniform := 0 } := by
  induction k with
  | zero =>
      have h0 : 0 % n = 0 := Nat.zero_mod n
      have h1 : (0 + 1) % n = 1 := by
        rw [Nat.zero_add]
        exact Nat.mod_eq_of_lt (by omega)
      simp [GradientLerpState.start, h0, h1]
  | succ k ih =>
      rw [Function.iterate_succ_apply', ih, cycleAdvance_eq]
      rw [Nat.mod_add_mod]

/-- C5: in timeCycle mode with a gradient set of size n ≥ 2, whenever the
mix ratio reaches 1 on a tick it is reset to 0 and the endpoint pair
(A, B) rotates to the next adjacent pair modulo n; n full ratio advances
bring the pair back to its initial value (0, 1); and the round-robin
rotation visits every gradient index as the A endpoint. -/
theorem c5_time_cycle (n : ℕ) (h2 : 2 ≤ n) :
    (∀ (s : GradientLerpState) (speed delta : ℚ),
        1 ≤ s.mixAmount + delta * speed →
        updateGradientLerp n speed delta s =
          { currentGradientA := s.currentGradientB,
            currentGradientB := (s.currentGradientB + 1) % n,
            mixAmount := 0, mixUniform := 0 }) ∧
    (cycleAdvance n)^[n] GradientLerpState.start = GradientLerpState.start ∧
    (∀ j, j < n → ∃ k, k < n ∧
        ((cycleAdvance n)^[k] GradientLerpState.start).currentGradientA = j) := by
  refine ⟨?_, ?_, ?_⟩
  · intro s speed delta h
    simp only [updateGradientLerp, smoothstep]
    rw [if_pos h]
    norm_num
  · rw [cycleAdvance_pair n h2 n]
    have ha : n % n = 0 := Nat.mod_self n
    have hb : (n + 1) % n = 1 := by
      rw [Nat.add_mod_left]
      exact Nat.mod_eq_of_lt (by omega)
    rw [ha, hb]
    rfl
  · intro j hj
    refine ⟨j, hj, ?_⟩
    rw [cycleAdvance_pair n h2 j]
    exact Nat.mod_eq_of_lt hj

/-- Witness for C5 with three gradients: three full advances return the
endpoint pair to (0, 1). -/
theorem c5_time_cycle_witness :
    (cycleAdvance 3)^[3] GradientLerpState.start = GradientLerpState.start :=
  (c5_time_cycle 3 (by decide)).2.1

/-- C8: after every tick of the time-cycle controller the material blend
uniform equals the smoothstep easing t·t·(3 − 2t) of the clamped mix
ratio — never the raw linear ratio, as the concrete tick advancing the
ratio to 1/4 shows (uniform 5/32 ≠ 1/4). -/
theorem c8_eased_mix_uniform :
    (∀ (n : ℕ) (speed delta : ℚ) (s : GradientLerpState),
        (updateGradientLerp n speed delta s).mixUniform =
          (fun t => t * t * (3 - 2 * t))
            (max 0 (min 1 (updateGradientLerp n speed delta s).mixAmount))) ∧
    (updateGradientLerp 2 1 (1/4) GradientLerpState.start).mixAmount = 1/4 ∧
    (updateGradientLerp 2 1 (1/4) GradientLerpState.start).mixUniform = 5/32 ∧
    ((5 : ℚ)/32 ≠ 1/4) := by
  refine ⟨?_, ?_, ?_, by norm_num⟩
  · intro n speed delta s
    simp only [updateGradientLerp, smoothstep]
    split <;> norm_num
  · norm_num [updateGradientLerp, smoothstep, GradientLerpState.start]
  · norm_num [updateGradientLerp, smoothstep, GradientLerpState.start]

@[simp] theorem Vec3.add_def (a b : Vec3) :
    a + b = ⟨a.x + b.x, a.y + b.y, a.z + b.z⟩ := rfl

@[simp] theorem Vec3.sub_def (a b : Vec3) :
    a - b = ⟨a.x - b.x, a.y - b.y, a.z - b.z⟩ := rfl

@[simp] theorem applyFloat_age (env : MathEnv) (st : Settings) (time delta : ℚ)
    (p : Particle) : (applyFloat env st time delta p).age = p.age := by
  simp only [applyFloat]
  split_ifs <;> cases st.floatStyle <;> rfl

@[simp] theorem applyFloat_lifespan (env : MathEnv) (st : Settings) (time delta : ℚ)
    (p : Particle) : (applyFloat env st time delta p).lifespan = p.lifespan := by
  simp only [applyFloat]
  split_ifs <;> cases st.floatStyle <;> rfl

@[simp] theorem applyFloat_rotation (env : MathEnv) (st : Settings) (time delta : ℚ)
    (p : Particle) : (applyFloat env st time delta p).rotation = p.rotation := by
  simp only [applyFloat]
  split_ifs <;> cases st.floatStyle <;> rfl

@[simp] theorem applyFloat_spinOffset (env : MathEnv) (st : Settings) (time delta : ℚ)
    (p : Particle) : (applyFloat env st time delta p).spinOffset = p.spinOffset := by
  simp only [applyFloat]
  split_ifs <;> cases st.floatStyle <;> rfl

@[simp] theorem applyFloat_angularVelocity (env : MathEnv) (st : Settings) (time delta : ℚ)
    (p : Particle) : (applyFloat env st time delta p).angularVelocity = p.angularVelocity := by
  simp only [applyFloat]
  split_ifs <;> cases st.floatStyle <;> rfl

@[simp] theorem applyGravity_age (st : Settings) (delta : ℚ) (p : Particle) :
    (applyGravity st delta p).age = p.age := by
  simp only [applyGravity]
  split_ifs <;> rfl

@[simp] theorem applyGravity_lifespan (st : Settings) (delta : ℚ) (p : Particle) :
    (applyGravity st delta p).lifespan = p.lifespan := by
  simp only [applyGravity]
  split_ifs <;> rfl

@[simp] theorem applyGravity_rotation (st : Settings) (delta : ℚ) (p : Particle) :
    (applyGravity st delta p).rotation = p.rotation := by
  simp only [applyGravity]
  split_ifs <;> rfl

@[simp] theorem applyGravity_spinOffset (st : Settings) (delta : ℚ) (p : Particle) :
    (applyGravity st delta p).spinOffset = p.spinOffset := by
  simp only [applyGravity]
  split_ifs <;> rfl

@[simp] theorem applyGravity_angularVelocity (st : Settings) (delta : ℚ) (p : Particle) :
    (applyGravity st delta p).angularVelocity = p.angularVelocity := by
  simp only [applyGravity]
  split_ifs <;> rfl

@[simp] theorem applyFollow_age (env : MathEnv) (st : Settings) (delta : ℚ)
    (cm : Option Vec3) (p : Particle) : (applyFollow env st delta cm p).age = p.age := by
  cases cm <;> simp only [applyFollow] <;> split_ifs <;> rfl

@[simp] theorem applyFollow_lifespan (env : MathEnv) (st : Settings) (delta : ℚ)
    (cm : Option Vec3) (p : Particle) :
    (applyFollow env st delta cm p).lifespan = p.lifespan := by
  cases cm <;> simp only [applyFollow] <;> split_ifs <;> rfl

@[simp] theorem applyFollow_rotation (env : MathEnv) (st : Settings) (delta : ℚ)
    (cm : Option Vec3) (p : Particle) :
    (applyFollow env st delta cm p).rotation = p.rotation := by
  cases cm <;> simp only [applyFollow] <;> split_ifs <;> rfl

@[simp] theorem applyFollow_spinOffset (env : MathEnv) (st : Settings) (delta : ℚ)
    (cm : Option Vec3) (p : Particle) :
    (applyFollow env st delta cm p).spinOffset = p.spinOffset := by
  cases cm <;> simp only [applyFollow] <;> split_ifs <;> rfl

@[simp] theorem applyFollow_angularVelocity (env : MathEnv) (st : Settings) (delta : ℚ)
    (cm : Option Vec3) (p : Particle) :
    (applyFollow env st delta cm p).angularVelocity = p.angularVelocity := by
  cases cm <;> simp only [applyFollow] <;> split_ifs <;> rfl

@[simp] theorem applyBounce_age (st : Settings) (p : Particle) :
    (applyBounce st p).age = p.age := by
  simp only [applyBounce]
  split_ifs <;> rfl

@[simp] theorem applyBounce_lifespan (st : Settings) (p : Particle) :
    (applyBounce st p).lifespan = p.lifespan := by
  simp only [applyBounce]
  split_ifs <;> rfl

@[simp] theorem applyBounce_rotation (st : Settings) (p : Particle) :
    (applyBounce st p).rotation = p.rotation := by
  simp only [applyBounce]
  split_ifs <;> rfl

@[simp] theorem applyBounce_spinOffset (st : Settings) (p : Particle) :
    (applyBounce st p).spinOffset = p.spinOffset := by
  simp only [applyBounce]
  split_ifs <;> rfl

@[simp] theorem applyBounce_angularVelocity (st : Settings) (p : Particle) :
    (applyBounce st p).angularVelocity = p.angularVelocity := by
  simp only [applyBounce]
  split_ifs <;> rfl

@[simp] theorem applyFacing_age (env : MathEnv) (st : Settings) (delta lifeFrac : ℚ)
    (cam mt : Vec3) (p : Particle) :
    (applyFacing env st delta lifeFrac cam mt p).age = p.age := by
  simp only [applyFacing]
  split_ifs <;> rfl

@[simp] theorem applyFacing_lifespan (env : MathEnv) (st : Settings) (delta lifeFrac : ℚ)
    (cam mt : Vec3) (p : Particle) :
    (applyFacing env st delta lifeFrac cam mt p).lifespan = p.lifespan := by
  simp only [applyFacing]
  split_ifs <;> rfl

@[simp] theorem applyFacing_spinOffset (env : MathEnv) (st : Settings) (delta lifeFrac : ℚ)
    (cam mt : Vec3) (p : Particle) :
    (applyFacing env st delta lifeFrac cam mt p).spinOffset = p.spinOffset := by
  simp only [applyFacing]
  split_ifs <;> rfl

@[simp] theorem applyFacing_angularVelocity (env : MathEnv) (st : Settings)
    (delta lifeFrac : ℚ) (cam mt : Vec3) (p : Particle) :
    (applyFacing env st delta lifeFrac cam mt p).angularVelocity = p.angularVelocity := by
  simp only [applyFacing]
  split_ifs <;> rfl

@[simp] theorem applyExitScale_age (st : Settings) (p : Particle) :
    (applyExitScale st p).age = p.age := rfl

@[simp] theorem applyExitScale_lifespan (st : Settings) (p : Particle) :
    (applyExitScale st p).lifespan = p.lifespan := rfl

@[simp] theorem applyExitScale_rotation (st : Settings) (p : Particle) :
    (applyExitScale st p).rotation = p.rotation := rfl

@[simp] theorem applyExitScale_spinOffset (st : Settings) (p : Particle) :
    (applyExitScale st p).spinOffset = p.spinOffset := rfl

@[simp] theorem applyExitScale_angularVelocity (st : Settings) (p : Particle) :
    (applyExitScale st p).angularVelocity = p.angularVelocity := rfl

theorem usp_expired (env : MathEnv) (st : Settings) (time delta : ℚ)
    (cam : Vec3) (cm : Option Vec3) (cmp : Vec3) (p : Particle)
    (h : p.lifespan ≤ p.age + delta) :
    updateSingleParticle env st time delta cam cm cmp p =
      ({ p with age := p.age + delta }, true, Option.none) := by
  simp only [updateSingleParticle]
  split
  next => rfl
  next hc => exact absurd h hc

theorem usp_age (env : MathEnv) (st : Settings) (time delta : ℚ)
    (cam : Vec3) (cm : Option Vec3) (cmp : Vec3) (p : Particle) :
    (updateSingleParticle env st time delta cam cm cmp p).1.age = p.age + delta := by
  simp only [updateSingleParticle]
  split
  next => rfl
  next => simp

theorem usp_lifespan (env : MathEnv) (st : Settings) (time delta : ℚ)
    (cam : Vec3) (cm : Option Vec3) (cmp : Vec3) (p : Particle) :
    (updateSingleParticle env st time delta cam cm cmp p).1.lifespan = p.lifespan := by
  simp only [updateSingleParticle]
  split
  next => rfl
  next => simp

theorem usp_angularVelocity (env : MathEnv) (st : Settings) (time delta : ℚ)
    (cam : Vec3) (cm : Option Vec3) (cmp : Vec3) (p : Particle) :
    (updateSingleParticle env st time delta cam cm cmp p).1.angularVelocity =
      p.angularVelocity := by
  simp only [updateSingleParticle]
  split
  next => rfl
  next => simp

theorem usp_removed_iff (env : MathEnv) (st : Settings) (time delta : ℚ)
    (cam : Vec3) (cm : Option Vec3) (cmp : Vec3) (p : Particle) :
    (updateSingleParticle env st time delta cam cm cmp p).2.1 = true ↔
      p.lifespan ≤ p.age + delta := by
  simp only [updateSingleParticle]
  split
  next h => exact iff_of_true rfl h
  next h => exact iff_of_false (by simp) h

theorem usp_surv_spinOffset (env : MathEnv) (st : Settings) (time delta : ℚ)
    (cam : Vec3) (cm : Option Vec3) (cmp : Vec3) (p : Particle)
    (hs : ¬ p.lifespan ≤ p.age + delta) :
    (updateSingleParticle env st time delta cam cm cmp p).1.spinOffset =
      ⟨p.spinOffset.x + p.angularVelocity.x * delta,
       p.spinOffset.y + p.angularVelocity.y * delta,
       p.spinOffset.z + p.angularVelocity.z * delta⟩ := by
  simp only [updateSingleParticle]
  split
  next hc => exact absurd hc hs
  next => simp

theorem tickOnce_age (st : Settings) (t : TickIn) (p : Particle) :
    (tickOnce st t p).1.age = p.age + t.delta :=
  usp_age t.env st t.time t.delta t.cameraPosition t.mouseWorld
    (t.mouseWorld.getD t.lastMouseWorld) p

theorem tickOnce_lifespan (st : Settings) (t : TickIn) (p : Particle) :
    (tickOnce st t p).1.lifespan = p.lifespan :=
  usp_lifespan t.env st t.time t.delta t.cameraPosition t.mouseWorld
    (t.mouseWorld.getD t.lastMouseWorld) p

theorem tickOnce_removed_iff (st : Settings) (t : TickIn) (p : Particle) :
    (tickOnce st t p).2.1 = true ↔ p.lifespan ≤ p.age + t.delta :=
  usp_removed_iff t.env st t.time t.delta t.cameraPosition t.mouseWorld
    (t.mouseWorld.getD t.lastMouseWorld) p

theorem tickOnce_expired (st : Settings) (t : TickIn) (p : Particle)
    (h : p.lifespan ≤ p.age + t.delta) :
    tickOnce st t p = ({ p with age := p.age + t.delta }, true, Option.none) :=
  usp_expired t.env st t.time t.delta t.cameraPosition t.mouseWorld
    (t.mouseWorld.getD t.lastMouseWorld) p h

@[simp] theorem deltaSum_zero (ticks : List TickIn) : deltaSum ticks 0 = 0 := by
  simp [deltaSum]

theorem deltaSum_cons (t : TickIn) (ts : List TickIn) (n : ℕ) :
    deltaSum (t :: ts) (n + 1) = t.delta + deltaSum ts n := by
  simp [deltaSum, List.take_succ_cons]

theorem runUntilRemoved_iff (st : Settings) :
    ∀ (ticks : List TickIn) (p : Particle) (k : ℕ),
      runUntilRemoved st ticks p = Option.some k ↔
        (k < ticks.length ∧ p.lifespan ≤ p.age + deltaSum ticks (k + 1) ∧
         ∀ j < k, p.age + deltaSum ticks (j + 1) < p.lifespan) := by
  intro ticks
  induction ticks with
  | nil =>
      intro p k
      simp [runUntilRemoved]
  | cons t ts ih =>
      intro p k
      simp only [runUntilRemoved]
      by_cases hrem : (tickOnce st t p).2.1 = true
      · have hL : p.lifespan ≤ p.age + t.delta := (tickOnce_removed_iff st t p).mp hrem
        rw [if_pos hrem]
        constructor
        · intro h
          have hk : k = 0 := by
            have := Option.some.injEq 0 k ▸ h
            simpa using h.symm
          subst hk
          refine ⟨by simp, ?_, by intro j hj; exact absurd hj (Nat.not_lt_zero j)⟩
          rw [deltaSum_cons, deltaSum_zero]
          linarith
        · rintro ⟨hk, hle, hall⟩
          cases k with
          | zero => rfl
          | succ k =>
              exfalso
              have := hall 0 (Nat.succ_pos k)
              rw [deltaSum_cons, deltaSum_zero] at this
              linarith
      · have hlt : ¬ p.lifespan ≤ p.age + t.delta := fun hc =>
          hrem ((tickOnce_removed_iff st t p).mpr hc)
        rw [if_neg hrem]
        have ha1 : (tickOnce st t p).1.age = p.age + t.delta := tickOnce_age st t p
        have hl1 : (tickOnce st t p).1.lifespan = p.lifespan := tickOnce_lifespan st t p
        rw [Option.map_eq_some']
        constructor
        · rintro ⟨a, hra, hk⟩
          obtain ⟨h1, h2, h3⟩ := (ih (tickOnce st t p).1 a).mp hra
          subst hk
          refine ⟨by simp; omega, ?_, ?_⟩
          · rw [deltaSum_cons]
            rw [ha1, hl1] at h2
            linarith
          · intro j hj
            cases j with
            | zero =>
                rw [deltaSum_cons, deltaSum_zero]
                linarith [not_le.mp hlt]
            | succ j =>
                have hj2 : j < a := by omega
                have := h3 j hj2
                rw [ha1, hl1] at this
                rw [deltaSum_cons]
                linarith
        · rintro ⟨hk, hle, hall⟩
          cases k with
          | zero =>
              exfalso
              rw [deltaSum_cons, deltaSum_zero] at hle
              exact hlt (by linarith)
          | succ a =>
              refine ⟨a, (ih (tickOnce st t p).1 a).mpr ⟨?_, ?_, ?_⟩, rfl⟩
              · simp at hk
                omega
              · rw [ha1, hl1]
                rw [deltaSum_cons] at hle
                linarith
              · intro j hj
                have := hall (j + 1) (by omega)
                rw [deltaSum_cons] at this
                rw [ha1, hl1]
                linarith

/-- C2: a particle spawned with age 0 is, over any sequence of ticks
with positive delta times, marked for removal exactly on the first tick
at which the accumulated delta time reaches its lifespan, never on an
earlier one; and on an expiring tick the update returns immediately
after the age advance — every remaining rule is skipped, only the age
field changes and no transform is staged. -/
theorem c2_lifecycle (st : Settings) (ticks : List TickIn) (p : Particle)
    (hage : p.age = 0) (hdl : ∀ t ∈ ticks, 0 < t.delta) :
    (∀ k, runUntilRemoved st ticks p = Option.some k ↔
        (k < ticks.length ∧ p.lifespan ≤ deltaSum ticks (k + 1) ∧
         ∀ j < k, deltaSum ticks (j + 1) < p.lifespan)) ∧
    (∀ (t : TickIn) (q : Particle), q.lifespan ≤ q.age + t.delta →
        tickOnce st t q = ({ q with age := q.age + t.delta }, true, Option.none)) := by
  refine ⟨?_, fun t q h => tickOnce_expired st t q h⟩
  intro k
  rw [runUntilRemoved_iff st ticks p k, hage]
  simp

/-- Witness for C2: with lifespan 3 and two ticks of delta 2, the
particle is removed on the second tick (index 1). -/
theorem c2_lifecycle_witness :
    runUntilRemoved baseSettings (List.replicate 2 (baseTick 2)) (baseP 0) =
      Option.some 1 := by
  have happ := c2_lifecycle baseSettings (List.replicate 2 (baseTick 2)) (baseP 0)
    (by norm_num [baseP, Particle.spawn, baseSettings])
    (by
      intro t ht
      rw [List.eq_of_mem_replicate ht]
      norm_num [baseTick])
  refine (happ.1 1).mpr ⟨by norm_num, ?_, ?_⟩
  · norm_num [deltaSum, List.replicate, baseTick, baseP, Particle.spawn, baseSettings]
  · intro j hj
    rw [Nat.lt_one_iff] at hj
    subst hj
    norm_num [deltaSum, List.replicate, baseTick, baseP, Particle.spawn, baseSettings]

/-- C10: on a tick where the particle expires, the update mutates only
the age field — position, velocity, rotation, spin offset and scale are
untouched — and stages no transform for the pool slot; the subsequent
`release` writes the zero-scale matrix into the slot and returns the
index to the free list. -/
theorem c10_expiry_frame (env : MathEnv) (st : Settings) (time delta : ℚ)
    (cam : Vec3) (cm : Option Vec3) (cmp : Vec3) (p : Particle)
    (h : p.lifespan ≤ p.age + delta) :
    updateSingleParticle env st time delta cam cm cmp p =
      ({ p with age := p.age + delta }, true, Option.none) ∧
    (∀ (s : PoolState) (i : ℕ),
        ((s.release i).matrices i = SlotMatrix.zeroScale ∧ i ∈ (s.release i).freeIndices)) := by
  refine ⟨usp_expired env st time delta cam cm cmp p h, ?_⟩
  intro s i
  constructor
  · simp [PoolState.release]
  · simp [PoolState.release]

/-- Witness for C10: a concrete particle at age 5/2 expiring under a
half-second delta with lifespan 3. -/
theorem c10_expiry_frame_witness :
    updateSingleParticle zeroEnv baseSettings 0 (1/2) ⟨0, 0, 10⟩ Option.none ⟨0, 0, 0⟩
        (baseP (5/2)) =
      ({ baseP (5/2) with age := (5:ℚ)/2 + 1/2 }, true, Option.none) ∧
    (∀ (s : PoolState) (i : ℕ),
        ((s.release i).matrices i = SlotMatrix.zeroScale ∧ i ∈ (s.release i).freeIndices)) := by
  have := c10_expiry_frame zeroEnv baseSettings 0 (1/2) ⟨0, 0, 10⟩ Option.none ⟨0, 0, 0⟩
    (baseP (5/2)) (by norm_num [baseP, Particle.spawn, baseSettings])
  refine ⟨?_, this.2⟩
  rw [this.1]
  norm_num [baseP, Particle.spawn, baseSettings]

/-- C3: for fade or shrink disappear mode with a positive exit duration,
the computed exit scale equals the initial scale at age
lifespan − exitDuration and is exactly 0 at age = lifespan; in the
concrete scenario (lifespan 3, exit duration 1, fade, initial scale 1)
the scale after the tick reaching age 2 is 1, after the tick reaching
age 2.5 it is 1/2, and the tick reaching age 3 removes the particle. -/
theorem c3_exit_scale (st : Settings) (p : Particle)
    (hmode : st.disappearMode = DisappearMode.fade ∨ st.disappearMode = DisappearMode.shrink)
    (hexit : 0 < st.exitDuration) (hlife : 0 < p.lifespan) :
    ((p.age = p.lifespan - st.exitDuration →
        (applyExitScale st p).scale = ⟨p.initialScale, p.initialScale, p.initialScale⟩) ∧
     (p.age = p.lifespan → (applyExitScale st p).scale = ⟨0, 0, 0⟩)) ∧
    ((updateSingleParticle zeroEnv baseSettings 0 (1/2) ⟨0, 0, 10⟩ Option.none ⟨0, 0, 0⟩
        (baseP (3/2))).1.scale = ⟨1, 1, 1⟩ ∧
     (updateSingleParticle zeroEnv baseSettings 0 (1/2) ⟨0, 0, 10⟩ Option.none ⟨0, 0, 0⟩
        (baseP 2)).1.scale = ⟨1/2, 1/2, 1/2⟩ ∧
     (updateSingleParticle zeroEnv baseSettings 0 (1/2) ⟨0, 0, 10⟩ Option.none ⟨0, 0, 0⟩
        (baseP (5/2))).2.1 = true) := by
  refine ⟨⟨?_, ?_⟩, ?_, ?_, ?_⟩
  · intro ha
    simp only [applyExitScale]
    rcases hmode with hm | hm <;> rw [hm] <;>
      rcases le_or_lt st.exitDuration p.lifespan with hle | hlt
    · have hmin : min st.exitDuration p.lifespan = st.exitDuration := min_eq_left hle
      have hrem : p.lifespan - p.age = st.exitDuration := by rw [ha]; ring
      have hdiv : st.exitDuration / st.exitDuration = 1 := div_self (ne_of_gt hexit)
      simp [hmin, hrem, hdiv]
    · have hmin : min st.exitDuration p.lifespan = p.lifespan := min_eq_right (le_of_lt hlt)
      have hrem : p.lifespan - p.age = st.exitDuration := by rw [ha]; ring
      have hnot : ¬ p.lifespan - p.age ≤ min st.exitDuration p.lifespan := by
        rw [hrem, hmin]
        exact not_le.mpr hlt
      simp [hnot]
    · have hmin : min st.exitDuration p.lifespan = st.exitDuration := min_eq_left hle
      have hrem : p.lifespan - p.age = st.exitDuration := by rw [ha]; ring
      have hdiv : st.exitDuration / st.exitDuration = 1 := div_self (ne_of_gt hexit)
      simp [hmin, hrem, hdiv]
    · have hmin : min st.exitDuration p.lifespan = p.lifespan := min_eq_right (le_of_lt hlt)
      have hrem : p.lifespan - p.age = st.exitDuration := by rw [ha]; ring
      have hnot : ¬ p.lifespan - p.age ≤ min st.exitDuration p.lifespan := by
        rw [hrem, hmin]
        exact not_le.mpr hlt
      simp [hnot]
  · intro ha
    have hminpos : 0 < min st.exitDuration p.lifespan := lt_min hexit hlife
    simp only [applyExitScale]
    rcases hmode with hm | hm <;> rw [hm] <;>
      · have hrem : p.lifespan - p.age = 0 := by rw [ha]; ring
        simp [hrem, le_of_lt hminpos]
  · norm_num [updateSingleParticle, applyFloat, applyGravity, applyFollow, applyBounce,
      applyFacing, applyExitScale, baseP, Particle.spawn, baseSettings, zeroEnv,
      Vec3.smul, Vec3.lengthE, Vec3.normalizeE, min_def, max_def, piQ]
  · norm_num [updateSingleParticle, applyFloat, applyGravity, applyFollow, applyBounce,
      applyFacing, applyExitScale, baseP, Particle.spawn, baseSettings, zeroEnv,
      Vec3.smul, Vec3.lengthE, Vec3.normalizeE, min_def, max_def, piQ]
  · norm_num [updateSingleParticle, baseP, Particle.spawn, baseSettings]

/-- Witness for C3 at the concrete scenario configuration: a particle
with lifespan 3, exit duration 1 and initial scale 1 at age 2 keeps
scale 1 (age equals lifespan − exitDuration). -/
theorem c3_exit_scale_witness :
    (applyExitScale baseSettings (baseP 2)).scale = ⟨1, 1, 1⟩ := by
  have := ((c3_exit_scale baseSettings (baseP 2)
    (Or.inl rfl) (by norm_num [baseSettings]) (by norm_num [baseP, Particle.spawn, baseSettings])).1.1
    (by norm_num [baseP, Particle.spawn, baseSettings]))
  rw [this]
  norm_num [baseP, Particle.spawn]

/-- C9: the exit-scaling window actually used is the configured exit
duration capped at the particle's lifespan; when the configured value
exceeds the lifespan, a fade/shrink particle at any nonnegative age
has scale initialScale · (1 − age/lifespan) — it shrinks linearly over
its whole lifespan, starting immediately from initialScale at age 0. -/
theorem c9_exit_window_cap (st : Settings) (p : Particle)
    (hmode : st.disappearMode = DisappearMode.fade ∨ st.disappearMode = DisappearMode.shrink)
    (hlife : 0 < p.lifespan) (hbig : p.lifespan < st.exitDuration) (hage0 : 0 ≤ p.age) :
    min st.exitDuration p.lifespan = p.lifespan ∧
    (applyExitScale st p).scale =
      ⟨p.initialScale * (1 - p.age / p.lifespan),
       p.initialScale * (1 - p.age / p.lifespan),
       p.initialScale * (1 - p.age / p.lifespan)⟩ := by
  have hmin : min st.exitDuration p.lifespan = p.lifespan := min_eq_right (le_of_lt hbig)
  refine ⟨hmin, ?_⟩
  simp only [applyExitScale]
  have hcond : p.lifespan - p.age ≤ min st.exitDuration p.lifespan := by
    rw [hmin]
    linarith
  have hkey : (p.lifespan - p.age) / min st.exitDuration p.lifespan =
      1 - p.age / p.lifespan := by
    rw [hmin]
    have hne : p.lifespan ≠ 0 := ne_of_gt hlife
    field_simp
  rcases hmode with hm | hm <;> rw [hm] <;> simp [hcond, hkey]

/-- Witness for C9: lifespan 2 with configured exit duration 5; at age
1/2 the scale is 1 · (1 − (1/2)/2) = 3/4. -/
theorem c9_exit_window_cap_witness :
    (applyExitScale c9Settings { baseP (1/2) with lifespan := 2 }).scale =
      ⟨3/4, 3/4, 3/4⟩ := by
  have := (c9_exit_window_cap c9Settings { baseP (1/2) with lifespan := 2 }
    (Or.inl rfl) (by norm_num) (by norm_num [c9Settings, baseSettings])
    (by norm_num [baseP, Particle.spawn, baseSettings])).2
  rw [this]
  norm_num [baseP, Particle.spawn]

/-- C7 (amended): on a tick where no pointer world position is
available, the follow rule is skipped — the absent target produces no
velocity pull and no error — and it resumes on the next tick with a
position; the mouse-facing rule, however, is NOT disabled on such a
tick: the tick behaves exactly like an update whose facing target is
the previously stored pointer world position (the persistent
`currentMouseWorldPos`), so facing keeps easing toward the stale
target (see the counterexample). -/
theorem c7_missing_target (st : Settings) :
    (∀ (env : MathEnv) (delta : ℚ) (p : Particle),
        applyFollow env st delta Option.none p = p) ∧
    (∀ (t : TickIn) (p : Particle), t.mouseWorld = Option.none →
        tickOnce st t p =
          updateSingleParticle t.env st t.time t.delta t.cameraPosition Option.none
            t.lastMouseWorld p) ∧
    (∀ (t : TickIn) (p : Particle) (w : Vec3), t.mouseWorld = Option.some w →
        tickOnce st t p =
          updateSingleParticle t.env st t.time t.delta t.cameraPosition
            (Option.some w) w p) := by
  refine ⟨?_, ?_, ?_⟩
  · intro env delta p
    simp only [applyFollow]
    split_ifs <;> rfl
  · intro t p h
    simp [tickOnce, h]
  · intro t p w h
    simp [tickOnce, h]

/-- Witness for C7 (amended) at the concrete absent-pointer tick. -/
theorem c7_missing_target_witness :
    tickOnce c7Settings c7Tick c7P =
      updateSingleParticle c7Tick.env c7Settings c7Tick.time c7Tick.delta
        c7Tick.cameraPosition Option.none c7Tick.lastMouseWorld c7P :=
  (c7_missing_target c7Settings).2.1 c7Tick c7P rfl

/-- C7 counterexample: on a tick whose pointer world position is absent
(`mouseWorld = none`), the mouse-facing rule is not disabled — it runs
against the stale stored position (3, 0, 4) and turns the freshly
spawned particle, moving its roll from 0 to 9/500.  The claim that no
particle state is driven toward a pointer-derived target on such a tick
is therefore false. -/
theorem c7_missing_target_counterexample :
    c7Tick.mouseWorld = Option.none ∧
    c7P.rotation.z = 0 ∧
    (stepP c7Settings c7Tick c7P).rotation.z = 9/500 := by
  refine ⟨rfl, ?_, ?_⟩
  · norm_num [c7P, Particle.spawn, c7Settings, baseSettings]
  · norm_num [stepP, tickOnce, updateSingleParticle, applyFloat, applyGravity, applyFollow,
      applyBounce, applyFacing, applyExitScale, c7P, c7Tick, Particle.spawn, c7Settings,
      baseSettings, c7Env, Vec3.smul, Vec3.lengthE, Vec3.normalizeE, min_def, max_def, piQ]

theorem easeClampBound (y so targ lag m : ℚ) (hm : 0 ≤ m) (hl0 : 0 ≤ lag) (hl1 : lag ≤ 1)
    (hso : so = 0) (hy : |y| ≤ m) :
    |y + (max (-m) (min m (targ - so)) + so - y) * lag| ≤ m := by
  subst hso
  have hmm : -m ≤ m := by linarith
  have h1 : -m ≤ max (-m) (min m (targ - 0)) := le_max_left _ _
  have h2 : max (-m) (min m (targ - 0)) ≤ m := max_le hmm (min_le_left _ _)
  rw [abs_le] at hy ⊢
  obtain ⟨hy1, hy2⟩ := hy
  constructor
  · nlinarith [mul_nonneg (by linarith : (0:ℚ) ≤ 1 - lag) (by linarith : (0:ℚ) ≤ y + m),
      mul_nonneg hl0 (by linarith : (0:ℚ) ≤ max (-m) (min m (targ - 0)) + m)]
  · nlinarith [mul_nonneg (by linarith : (0:ℚ) ≤ 1 - lag) (by linarith : (0:ℚ) ≤ m - y),
      mul_nonneg hl0 (by linarith : (0:ℚ) ≤ m - (max (-m) (min m (targ - 0)) + 0))]

theorem applyFacing_mouse_rotY_bound (env : MathEnv) (st : Settings)
    (delta lifeFrac : ℚ) (cam mt : Vec3) (p : Particle)
    (hmode : st.facingMode = FacingMode.mouse)
    (hso : p.spinOffset.y = 0) (hl0 : 0 ≤ lifeFrac) (hl1 : lifeFrac ≤ 1)
    (hy : |p.rotation.y| ≤ piQ / (5/2)) :
    |(applyFacing env st delta lifeFrac cam mt p).rotation.y| ≤ piQ / (5/2) := by
  have hm0 : (0:ℚ) ≤ piQ / (5/2) := by norm_num [piQ]
  have hc1 : ¬(FacingMode.mouse = FacingMode.none ∨ FacingMode.mouse = FacingMode.random ∨
      FacingMode.mouse = FacingMode.fixed) := by simp
  have hc2 : ¬(FacingMode.mouse = FacingMode.billboard) := by simp
  simp only [applyFacing, hmode, if_neg hc1, if_neg hc2]
  split_ifs <;> first
    | exact hy
    | exact easeClampBound p.rotation.y p.spinOffset.y _ _ _ hm0
        (by linarith) (by linarith) hso hy

theorem usp_surv_rotY_mouse (env : MathEnv) (st : Settings) (time delta : ℚ)
    (cam : Vec3) (cm : Option Vec3) (cmp : Vec3) (p : Particle)
    (hmode : st.facingMode = FacingMode.mouse)
    (hs : ¬ p.lifespan ≤ p.age + delta)
    (hso : p.spinOffset.y + p.angularVelocity.y * delta = 0)
    (hl0 : 0 ≤ (p.age + delta) / p.lifespan) (hl1 : (p.age + delta) / p.lifespan ≤ 1)
    (hy : |p.rotation.y| ≤ piQ / (5/2)) :
    |(updateSingleParticle env st time delta cam cm cmp p).1.rotation.y| ≤ piQ / (5/2) := by
  simp only [updateSingleParticle]
  split
  next hc => exact absurd hc hs
  next hc =>
    rw [applyExitScale_rotation]
    refine applyFacing_mouse_rotY_bound _ _ _ _ _ _ _ hmode ?_ ?_ ?_ ?_
    · simpa using hso
    · simpa using hl0
    · simpa using hl1
    · simpa using hy

/-- C6 (amended): in mouse facing mode, a particle spawned with the spin
and tumble behaviors disabled keeps its resolved yaw within 72 degrees
(π/2.5 radians) in magnitude along every sequence of ticks with
nonnegative delta times, whatever the pointer world positions are.
The code clamps only the deviation from the accumulated spin offset
before re-applying that offset, so with spin or tumble enabled the
resolved yaw can exceed 72° (see the counterexample). -/
theorem c6_yaw_clamp (st : Settings) (hmode : st.facingMode = FacingMode.mouse)
    (hspin : st.spinEnabled = false) (htumble : st.tumbleEnabled = false)
    (hlife : 0 < st.lifespan)
    (idx : ℕ) (pos : Vec3) (scale : ℚ) (md : ℚ × ℚ) (tr rr : Vec3) (t0 ph : ℚ)
    (ticks : List TickIn) (hdl : ∀ t ∈ ticks, 0 ≤ t.delta) :
    |(ticks.foldl (fun q t => stepP st t q)
        (Particle.spawn st idx pos scale md tr rr t0 ph)).rotation.y| ≤ piQ / (5/2) := by
  have hstep : ∀ (q : Particle) (t : TickIn), 0 ≤ t.delta → mouseYawInv st q →
      mouseYawInv st (stepP st t q) := by
    intro q t hdelta hq
    obtain ⟨hav, hso, hage, hlf, hy⟩ := hq
    by_cases hrem : q.lifespan ≤ q.age + t.delta
    · simp only [mouseYawInv, stepP, tickOnce_expired st t q hrem]
      exact ⟨hav, hso, by linarith, hlf, hy⟩
    · have hLpos : 0 < q.lifespan := by rw [hlf]; exact hlife
      refine ⟨?_, ?_, ?_, ?_, ?_⟩
      · simp only [stepP, tickOnce]
        rw [usp_angularVelocity]
        exact hav
      · simp only [stepP, tickOnce]
        rw [usp_surv_spinOffset _ _ _ _ _ _ _ _ hrem]
        simp [hav, hso]
      · simp only [stepP, tickOnce]
        rw [usp_age]
        linarith
      · simp only [stepP, tickOnce]
        rw [usp_lifespan]
        exact hlf
      · simp only [stepP, tickOnce]
        refine usp_surv_rotY_mouse _ _ _ _ _ _ _ _ hmode hrem ?_ ?_ ?_ hy
        · rw [hav, hso]
          ring
        · apply div_nonneg (by linarith) (le_of_lt hLpos)
        · rw [div_le_one hLpos]
          linarith [not_le.mp hrem]
  have hinit : mouseYawInv st (Particle.spawn st idx pos scale md tr rr t0 ph) := by
    refine ⟨?_, ?_, ?_, ?_, ?_⟩
    · simp [Particle.spawn, hspin, htumble]
    · simp [Particle.spawn]
    · simp [Particle.spawn]
    · simp [Particle.spawn]
    · have : (Particle.spawn st idx pos scale md tr rr t0 ph).rotation = ⟨0, 0, 0⟩ := by
        simp [Particle.spawn, hmode]
      rw [this]
      norm_num [piQ]
  have hmain : ∀ (l : List TickIn) (q : Particle), (∀ t ∈ l, 0 ≤ t.delta) →
      mouseYawInv st q → mouseYawInv st (l.foldl (fun q t => stepP st t q) q) := by
    intro l
    induction l with
    | nil => intro q _ h; exact h
    | cons t ts ih =>
        intro q hdl2 hq
        rw [List.foldl_cons]
        exact ih _ (fun u hu => hdl2 u (List.mem_cons_of_mem t hu))
          (hstep q t (hdl2 t (List.mem_cons_self t ts)) hq)
  exact (hmain ticks _ hdl hinit).2.2.2.2

/-- Witness for C6 (amended): one absent-pointer tick on a freshly
spawned mouse-mode particle with spin and tumble off. -/
theorem c6_yaw_clamp_witness :
    |([c7Tick].foldl (fun q t => stepP c7Settings t q)
        (Particle.spawn c7Settings 0 ⟨0, 0, 0⟩ 1 (1, 0) ⟨0, 0, 0⟩ ⟨0, 0, 0⟩ 0 0)).rotation.y| ≤
      piQ / (5/2) :=
  c6_yaw_clamp c7Settings rfl rfl rfl (by norm_num [c7Settings, baseSettings])
    0 ⟨0, 0, 0⟩ 1 (1, 0) ⟨0, 0, 0⟩ ⟨0, 0, 0⟩ 0 0 [c7Tick]
    (by
      intro t ht
      rw [List.mem_singleton.mp ht]
      norm_num [c7Tick])

/-- C6 counterexample: with spin enabled (speed 5) in mouse facing mode,
the reachable state three half-second ticks after spawn has yaw about
1.43 rad, above the claimed π/2.5 ≈ 1.257 rad bound: the code clamps
the deviation from the accumulated spin offset and then re-applies the
offset, so the resolved yaw is not bounded by 72°. -/
theorem c6_yaw_clamp_counterexample :
    piQ / (5/2) <
      (([c6Tick, c6Tick, c6Tick]).foldl (fun q t => stepP c6Settings t q) c6P).rotation.y := by
  have h1 : stepP c6Settings c6Tick c6P =
      { index := 0, position := ⟨0, 0, 0⟩, velocity := ⟨0, 0, 0⟩,
        rotation := ⟨0, 403/1600, 0⟩, angularVelocity := ⟨0, 5, 0⟩,
        spinOffset := ⟨0, 5/2, 0⟩, scale := ⟨1, 1, 1⟩, initialScale := 1,
        age := 1/2, lifespan := 100, moveDirection := (1, 0), spawnTime := 0,
        phaseOffset := 0 } := by
    have hcA : ¬(FacingMode.mouse = FacingMode.none ∨ FacingMode.mouse = FacingMode.random ∨
        FacingMode.mouse = FacingMode.fixed) := by simp
    have hcB : ¬(FacingMode.mouse = FacingMode.billboard) := by simp
    have hcC : FacingMode.mouse = FacingMode.mouse := rfl
    have hcT : true = true := rfl
    have hcF : ¬(false = true) := by simp
    simp only [stepP, tickOnce, updateSingleParticle, c6P, c6Tick, c6Settings, baseSettings,
      Particle.spawn, Option.getD_some, applyFloat, applyGravity, applyFollow, applyBounce,
      applyFacing, applyExitScale, if_neg hcA, if_neg hcB, if_pos hcC, if_pos hcT, if_neg hcF]
    norm_num [c6Env, Vec3.smul, Vec3.lengthE, Vec3.normalizeE, min_def, max_def, piQ]
  have h2 : stepP c6Settings c6Tick
      { index := 0, position := ⟨0, 0, 0⟩, velocity := ⟨0, 0, 0⟩,
        rotation := ⟨0, 403/1600, 0⟩, angularVelocity := ⟨0, 5, 0⟩,
        spinOffset := ⟨0, 5/2, 0⟩, scale := ⟨1, 1, 1⟩, initialScale := 1,
        age := 1/2, lifespan := 100, moveDirection := (1, 0), spawnTime := 0,
        phaseOffset := 0 } =
      { index := 0, position := ⟨0, 0, 0⟩, velocity := ⟨0, 0, 0⟩,
        rotation := ⟨0, 2348191/3200000, 0⟩, angularVelocity := ⟨0, 5, 0⟩,
        spinOffset := ⟨0, 5, 0⟩, scale := ⟨1, 1, 1⟩, initialScale := 1,
        age := 1, lifespan := 100, moveDirection := (1, 0), spawnTime := 0,
        phaseOffset := 0 } := by
    have hcA : ¬(FacingMode.mouse = FacingMode.none ∨ FacingMode.mouse = FacingMode.random ∨
        FacingMode.mouse = FacingMode.fixed) := by simp
    have hcB : ¬(FacingMode.mouse = FacingMode.billboard) := by simp
    have hcC : FacingMode.mouse = FacingMode.mouse := rfl
    have hcT : true = true := rfl
    have hcF : ¬(false = true) := by simp
    simp only [stepP, tickOnce, updateSingleParticle, c6Tick, c6Settings, baseSettings,
      Option.getD_some, applyFloat, applyGravity, applyFollow, applyBounce,
      applyFacing, applyExitScale, if_neg hcA, if_neg hcB, if_pos hcC, if_pos hcT, if_neg hcF]
    norm_num [c6Env, Vec3.smul, Vec3.lengthE, Vec3.normalizeE, min_def, max_def, piQ]
  have h3 : stepP c6Settings c6Tick
      { index := 0, position := ⟨0, 0, 0⟩, velocity := ⟨0, 0, 0⟩,
        rotation := ⟨0, 2348191/3200000, 0⟩, angularVelocity := ⟨0, 5, 0⟩,
        spinOffset := ⟨0, 5, 0⟩, scale := ⟨1, 1, 1⟩, initialScale := 1,
        age := 1, lifespan := 100, moveDirection := (1, 0), spawnTime := 0,
        phaseOffset := 0 } =
      { index := 0, position := ⟨0, 0, 0⟩, velocity := ⟨0, 0, 0⟩,
        rotation := ⟨0, 18248353881/12800000000, 0⟩, angularVelocity := ⟨0, 5, 0⟩,
        spinOffset := ⟨0, 15/2, 0⟩, scale := ⟨1, 1, 1⟩, initialScale := 1,
        age := 3/2, lifespan := 100, moveDirection := (1, 0), spawnTime := 0,
        phaseOffset := 0 } := by
    have hcA : ¬(FacingMode.mouse = FacingMode.none ∨ FacingMode.mouse = FacingMode.random ∨
        FacingMode.mouse = FacingMode.fixed) := by simp
    have hcB : ¬(FacingMode.mouse = FacingMode.billboard) := by simp
    have hcC : FacingMode.mouse = FacingMode.mouse := rfl
    have hcT : true = true := rfl
    have hcF : ¬(false = true) := by simp
    simp only [stepP, tickOnce, updateSingleParticle, c6Tick, c6Settings, baseSettings,
      Option.getD_some, applyFloat, applyGravity, applyFollow, applyBounce,
      applyFacing, applyExitScale, if_neg hcA, if_neg hcB, if_pos hcC, if_pos hcT, if_neg hcF]
    norm_num [c6Env, Vec3.smul, Vec3.lengthE, Vec3.normalizeE, min_def, max_def, piQ]
  rw [List.foldl_cons, List.foldl_cons, List.foldl_cons, List.foldl_nil, h1, h2, h3]
  norm_num [piQ]

end Trail3D
